import Mathlib

/-!
Shallow embedding of the core logic of the eliza repository:
the resilient HTTP fetch client and provider adapters
(src/packages/plugin-solana/src/clients.ts), the trust score engine
(src/packages/plugin-solana/src/providers/trustScoreProvider.ts) and the
simulated selling orchestrator
(src/packages/plugin-solana/src/providers/simulationSellingService.ts).

JavaScript numbers are modelled as rationals. Stateful code is modelled by
explicit state passing; the concurrency of the orchestrator is modelled by a
step relation over the atomic segments between `await` suspension points of
the single-threaded JavaScript event loop. Operations of the persistence
collaborator (the TrustScoreDatabase implementation, whose source is not
under src/) are modelled from the spec and marked as such in doc comments.
-/

namespace Eliza

/-! ### Resilient fetch client — clients.ts lines 31-140 -/

/-- Embeds `RetryOptions` (clients.ts lines 31-37), with all fields required
as in `Required<RetryOptions>` (line 44). -/
structure RetryOptions where
  maxRetries : Nat
  initialDelay : ℚ
  maxDelay : ℚ
  backoffFactor : ℚ
  retryableStatuses : List Nat
deriving Repr, DecidableEq

/-- Embeds `DEFAULT_RETRY_OPTIONS` (clients.ts lines 44-50). -/
def DEFAULT_RETRY_OPTIONS : RetryOptions :=
  { maxRetries := 3
    initialDelay := 1000
    maxDelay := 30000
    backoffFactor := 2
    retryableStatuses := [408, 429, 500, 502, 503, 504] }

/-- The JavaScript error values that can reach the catch block of
`http.request`: `TypeError` and `AbortError` thrown by `fetch`, the
`RequestError` thrown on a non-ok response (clients.ts lines 52-60, carrying
the response status and body text), and any other error. -/
inductive JsError where
  | typeError
  | abortError
  | requestError (status : Nat) (body : String)
  | otherError (name : String)
deriving Repr, DecidableEq

/-- Embeds `isRetryableError` (clients.ts lines 74-77):
`error.name === "TypeError" || error.name === "AbortError" ||
error instanceof RequestError`. Note that every `RequestError` is
retryable regardless of its status; `retryableStatuses` is never consulted. -/
def isRetryableError : JsError → Bool
  | .typeError => true
  | .abortError => true
  | .requestError _ _ => true
  | .otherError _ => false

/-- Embeds `calculateDelay` (clients.ts lines 65-72):
`Math.min(initialDelay * backoffFactor ^ (attempt - 1), maxDelay)`, with
`Math.min` written out as a conditional so that the definition evaluates by
kernel reduction; `calculateDelay_eq_min` states it equals `min`. -/
def calculateDelay (attempt : Nat) (options : RetryOptions) : ℚ :=
  let delay := options.initialDelay * options.backoffFactor ^ (attempt - 1)
  if delay ≤ options.maxDelay then delay else options.maxDelay

lemma calculateDelay_eq_min (attempt : Nat) (options : RetryOptions) :
    calculateDelay attempt options =
      min (options.initialDelay * options.backoffFactor ^ (attempt - 1))
        options.maxDelay := by
  simp [calculateDelay, min_def]

/-- The outcome the environment supplies for one `fetch` call: either the
promise rejects with an error, or a response with a status and body text
arrives. -/
inductive FetchResult where
  | thrown (e : JsError)
  | response (status : Nat) (body : String)
deriving Repr, DecidableEq

/-- JavaScript `Response.ok`: status in the range 200-299. -/
def statusOk (status : Nat) : Bool := 200 ≤ status && status < 300

/-- The try block of one loop iteration of `http.request` (clients.ts lines
110-121): await fetch; on a non-ok response read the body text and throw
`RequestError` carrying the status and body; otherwise return the response
(modelled by its status). -/
def attemptOutcome : FetchResult → Except JsError Nat
  | .thrown e => Except.error e
  | .response status body =>
      if statusOk status then Except.ok status
      else Except.error (.requestError status body)

instance : DecidableEq (Except JsError Nat) := fun x y =>
  match x, y with
  | .ok a, .ok b => if h : a = b then isTrue (by rw [h]) else isFalse (by simp [h])
  | .error a, .error b => if h : a = b then isTrue (by rw [h]) else isFalse (by simp [h])
  | .ok _, .error _ => isFalse (by simp)
  | .error _, .ok _ => isFalse (by simp)

/-- The trace of one `http.request` call: the number of the attempt that
terminated the loop, the sleeps performed between attempts (in order, in
milliseconds), and the final outcome. -/
structure RequestTrace where
  attempts : Nat
  delays : List ℚ
  result : Except JsError Nat
deriving Repr, DecidableEq

/-- The retry loop of `http.request` (clients.ts lines 107-139). `env n` is
the fetch outcome of attempt `n` (attempts are numbered from 1 as in the
source). The loop retries only while `attempt < maxRetries`, so the number
of recursive steps from attempt `a` is bounded by `maxRetries - a`; `fuel`
carries that bound to make the recursion structural, and is never exhausted
when `maxRetries ≤ attempt + fuel`. -/
def requestLoop (opts : RetryOptions) (env : Nat → FetchResult) :
    Nat → Nat → RequestTrace
  | attempt, 0 =>
    match attemptOutcome (env attempt) with
    | .ok status => ⟨attempt, [], Except.ok status⟩
    | .error e => ⟨attempt, [], Except.error e⟩
  | attempt, fuel + 1 =>
    match attemptOutcome (env attempt) with
    | .ok status => ⟨attempt, [], Except.ok status⟩
    | .error e =>
      if isRetryableError e = true ∧ attempt < opts.maxRetries then
        let rest := requestLoop opts env (attempt + 1) fuel
        ⟨rest.attempts, calculateDelay attempt opts :: rest.delays, rest.result⟩
      else ⟨attempt, [], Except.error e⟩

/-- Embeds `http.request` (clients.ts lines 97-140): the loop starts at
attempt 1; merging of caller options with the defaults is modelled by the
caller passing the merged `opts` directly. -/
def request (opts : RetryOptions) (env : Nat → FetchResult) : RequestTrace :=
  requestLoop opts env 1 (opts.maxRetries - 1)

lemma requestLoop_attempt_le (opts : RetryOptions) (env : Nat → FetchResult) :
    ∀ fuel attempt, attempt ≤ (requestLoop opts env attempt fuel).attempts := by
  intro fuel
  induction fuel with
  | zero =>
    intro attempt
    simp only [requestLoop]
    cases attemptOutcome (env attempt) with
    | ok status => simp
    | error e => simp
  | succ fuel ih =>
    intro attempt
    simp only [requestLoop]
    cases attemptOutcome (env attempt) with
    | ok status => simp
    | error e =>
      dsimp only
      by_cases h : isRetryableError e = true ∧ attempt < opts.maxRetries
      · rw [if_pos h]
        exact le_trans (Nat.le_succ attempt) (ih (attempt + 1))
      · simp [h]

lemma requestLoop_attempts_le_max (opts : RetryOptions) (env : Nat → FetchResult) :
    ∀ fuel attempt,
      (requestLoop opts env attempt fuel).attempts ≤ max attempt opts.maxRetries := by
  intro fuel
  induction fuel with
  | zero =>
    intro attempt
    simp only [requestLoop]
    cases attemptOutcome (env attempt) with
    | ok status => simp
    | error e => simp
  | succ fuel ih =>
    intro attempt
    simp only [requestLoop]
    cases attemptOutcome (env attempt) with
    | ok status => simp
    | error e =>
      dsimp only
      by_cases h : isRetryableError e = true ∧ attempt < opts.maxRetries
      · rw [if_pos h]
        have h2 := ih (attempt + 1)
        have hlt : attempt + 1 ≤ opts.maxRetries := h.2
        dsimp only at h2 ⊢
        omega
      · simp [h]

lemma requestLoop_delays (opts : RetryOptions) (env : Nat → FetchResult) :
    ∀ fuel attempt,
      (requestLoop opts env attempt fuel).delays =
        (List.range' attempt ((requestLoop opts env attempt fuel).attempts - attempt)).map
          (fun n => calculateDelay n opts) := by
  intro fuel
  induction fuel with
  | zero =>
    intro attempt
    simp only [requestLoop]
    cases attemptOutcome (env attempt) with
    | ok status => simp
    | error e => simp
  | succ fuel ih =>
    intro attempt
    simp only [requestLoop]
    cases attemptOutcome (env attempt) with
    | ok status => simp
    | error e =>
      dsimp only
      by_cases h : isRetryableError e = true ∧ attempt < opts.maxRetries
      · rw [if_pos h]
        dsimp only
        have hle := requestLoop_attempt_le opts env fuel (attempt + 1)
        have hstep : (requestLoop opts env (attempt + 1) fuel).attempts - attempt =
            ((requestLoop opts env (attempt + 1) fuel).attempts - (attempt + 1)) + 1 := by
          omega
        rw [hstep, List.range'_succ attempt _ 1, List.map_cons, ih (attempt + 1)]
      · simp [h]

lemma requestLoop_last_error (opts : RetryOptions) (env : Nat → FetchResult) :
    ∀ fuel attempt e,
      (requestLoop opts env attempt fuel).result = Except.error e →
        attemptOutcome (env (requestLoop opts env attempt fuel).attempts) =
          Except.error e := by
  intro fuel
  induction fuel with
  | zero =>
    intro attempt e
    simp only [requestLoop]
    cases hout : attemptOutcome (env attempt) with
    | ok status => simp
    | error e2 =>
      intro hres
      simp only at hres
      simpa [hres] using hout
  | succ fuel ih =>
    intro attempt e
    simp only [requestLoop]
    cases hout : attemptOutcome (env attempt) with
    | ok status => simp
    | error e2 =>
      dsimp only
      by_cases h : isRetryableError e2 = true ∧ attempt < opts.maxRetries
      · rw [if_pos h]
        exact ih (attempt + 1) e
      · rw [if_neg h]
        intro hres
        simp only at hres
        simpa [hres] using hout

/-- A retry policy identical to the defaults except that the caller sets
`maxRetries := 0` (the `RetryOptions` interface lets callers override any
field). -/
def zeroRetriesOptions : RetryOptions :=
  { DEFAULT_RETRY_OPTIONS with maxRetries := 0 }

/-- C4 (amended): for every retry policy and every request, `http.request`
issues at most `max 1 maxRetries` attempts (the loop always issues at least
one attempt, so a policy with `maxRetries = 0` still issues one); the delay
slept between attempt `n` and attempt `n + 1` equals
`min(maxDelay, initialDelay * backoffFactor ^ (n - 1))`; and when the loop
ends in failure the surfaced error is exactly the error of the final
attempt. -/
theorem http_request_retry_envelope (opts : RetryOptions) (env : Nat → FetchResult) :
    (request opts env).attempts ≤ max 1 opts.maxRetries ∧
    (request opts env).delays =
      (List.range' 1 ((request opts env).attempts - 1)).map
        (fun n => min (opts.initialDelay * opts.backoffFactor ^ (n - 1)) opts.maxDelay) ∧
    ∀ e, (request opts env).result = Except.error e →
      attemptOutcome (env (request opts env).attempts) = Except.error e := by
  refine ⟨?_, ?_, ?_⟩
  · exact requestLoop_attempts_le_max opts env (opts.maxRetries - 1) 1
  · have h := requestLoop_delays opts env (opts.maxRetries - 1) 1
    simpa [calculateDelay_eq_min] using h
  · exact fun e => requestLoop_last_error opts env (opts.maxRetries - 1) 1 e

/-- Witness for `http_request_retry_envelope`: with the default policy and an
environment answering HTTP 500 on every attempt, the loop stops after attempt
3 with the last 500 error surfaced, having slept 1000ms and then 2000ms. -/
theorem http_request_retry_envelope_witness :
    attemptOutcome ((fun _ => FetchResult.response 500 "oops")
        (request DEFAULT_RETRY_OPTIONS (fun _ => FetchResult.response 500 "oops")).attempts) =
      Except.error (JsError.requestError 500 "oops") ∧
    (request DEFAULT_RETRY_OPTIONS (fun _ => FetchResult.response 500 "oops")).attempts = 3 ∧
    (request DEFAULT_RETRY_OPTIONS (fun _ => FetchResult.response 500 "oops")).delays =
      [1000, 2000] :=
  ⟨(http_request_retry_envelope DEFAULT_RETRY_OPTIONS
      (fun _ => FetchResult.response 500 "oops")).2.2
      (JsError.requestError 500 "oops") (by decide),
   by decide,
   by norm_num [request, requestLoop, attemptOutcome, statusOk, isRetryableError,
     DEFAULT_RETRY_OPTIONS, calculateDelay]⟩

/-- Counterexample to C4 as stated ("at most maxRetries attempts"): with
`maxRetries = 0` the loop still issues its unconditional first attempt, so
the number of attempts (1) exceeds `maxRetries` (0). -/
theorem http_request_maxRetries_zero_counterexample :
    (request zeroRetriesOptions (fun _ => FetchResult.response 500 "oops")).attempts = 1 ∧
    ¬ (request zeroRetriesOptions (fun _ => FetchResult.response 500 "oops")).attempts ≤
        zeroRetriesOptions.maxRetries := by
  decide

/-- C3: with the default policy, a response with the non-retryable status 404
does NOT fail immediately: `isRetryableError` treats every `RequestError` as
retryable (it never consults `retryableStatuses`), so the request is
reissued on attempts 2 and 3 with backoff sleeps of 1000ms and 2000ms before
the `RequestError` carrying status 404 and the body text finally surfaces.
This exhibits the divergence from the claim, which demands zero retries and
zero sleeps for a 4xx status outside the retryable set. -/
theorem http_request_retries_non_retryable_status :
    (404 ∉ DEFAULT_RETRY_OPTIONS.retryableStatuses) ∧
    (request DEFAULT_RETRY_OPTIONS (fun _ => FetchResult.response 404 "not found")).attempts
        = 3 ∧
    (request DEFAULT_RETRY_OPTIONS (fun _ => FetchResult.response 404 "not found")).delays
        = [1000, 2000] ∧
    (request DEFAULT_RETRY_OPTIONS (fun _ => FetchResult.response 404 "not found")).result
        = Except.error (JsError.requestError 404 "not found") := by
  refine ⟨by decide, by decide, ?_, by decide⟩
  norm_num [request, requestLoop, attemptOutcome, statusOk, isRetryableError,
    DEFAULT_RETRY_OPTIONS, calculateDelay]

/-! ### Helius holder list pagination — clients.ts lines 400-501 -/

/-- One row of `data.result.token_accounts` in a `getTokenAccounts` RPC
response: the owner address and the amount (parsed with `parseFloat` in the
source, modelled as a rational). -/
structure TokenAccount where
  owner : String
  amount : ℚ
deriving Repr, DecidableEq

/-- `Map.get` on the holders map: the aggregated balance stored for an
owner, when present. `Map.has` is `(lookupOwner m k).isSome`. -/
def lookupOwner : List (String × ℚ) → String → Option ℚ
  | [], _ => none
  | p :: t, k => if p.1 = k then some p.2 else lookupOwner t k

/-- The body of the `forEach` over `data.result.token_accounts`
(clients.ts lines 460-472): merge one account into `allHoldersMap`, adding
the amount onto an existing owner entry or inserting a new entry. The
JavaScript `Map` is modelled as an association list in insertion order. -/
def addHolder (m : List (String × ℚ)) (acc : TokenAccount) : List (String × ℚ) :=
  if (lookupOwner m acc.owner).isSome then
    m.map (fun p => if p.1 = acc.owner then (p.1, p.2 + acc.amount) else p)
  else
    m ++ [(acc.owner, acc.amount)]

/-- The pagination loop of `HeliusClient.fetchHolderList` (clients.ts lines
420-475). `pages` is the sequence of `token_accounts` arrays the RPC returns
for successive cursors; a response with no token accounts is modelled as an
empty array, and an exhausted `pages` list means every further response is
empty. Each iteration first breaks when `page > 2` (before fetching), then
fetches, then breaks when the fetched page has no token accounts, and
otherwise folds the page into the map and advances the cursor. Returns the
final map together with the number of RPC fetches performed. -/
def fetchHolderPages : List (List TokenAccount) → Nat → List (String × ℚ) →
    List (String × ℚ) × Nat
  | [], page, m => if page > 2 then (m, 0) else (m, 1)
  | p :: rest, page, m =>
    if page > 2 then (m, 0)
    else if p.isEmpty then (m, 1)
    else
      let r := fetchHolderPages rest (page + 1) (p.foldl addHolder m)
      (r.1, r.2 + 1)

/-- Embeds `HeliusClient.fetchHolderList` (clients.ts lines 400-501): the
loop starts at page 1 with an empty map. The final conversion of each map
entry to `HolderData` with `balance.toString()` is kept as the entry itself;
the cache decoration is outside the loop and not modelled. -/
def fetchHolderList (pages : List (List TokenAccount)) : List (String × ℚ) × Nat :=
  fetchHolderPages pages 1 []

/-- The token accounts the loop actually processes: at most the first two
pages, truncated at the first page with no token accounts. -/
def processedAccounts (pages : List (List TokenAccount)) : List TokenAccount :=
  ((pages.take 2).takeWhile (fun p => !p.isEmpty)).flatten

/-- Sum of the amounts of the given owner's accounts. -/
def sumOwner (owner : String) (accs : List TokenAccount) : ℚ :=
  ((accs.filter (fun a => a.owner == owner)).map (fun a => a.amount)).sum

/-- The owner addresses of the holders map, in insertion order. -/
def keys (m : List (String × ℚ)) : List String := m.map Prod.fst

lemma fetchHolderPages_stop (pages : List (List TokenAccount)) (page : Nat)
    (m : List (String × ℚ)) (h : page > 2) : fetchHolderPages pages page m = (m, 0) := by
  cases pages <;> simp [fetchHolderPages, h]

lemma fetchHolderList_eq_foldl (pages : List (List TokenAccount)) :
    (fetchHolderList pages).1 = (processedAccounts pages).foldl addHolder [] := by
  match pages with
  | [] => simp [fetchHolderList, fetchHolderPages, processedAccounts]
  | [p] =>
    by_cases hp : p.isEmpty
    · simp [fetchHolderList, fetchHolderPages, processedAccounts, hp]
    · simp [fetchHolderList, fetchHolderPages, processedAccounts, hp]
  | p :: q :: rest =>
    by_cases hp : p.isEmpty
    · simp [fetchHolderList, fetchHolderPages, processedAccounts, hp]
    · by_cases hq : q.isEmpty
      · simp [fetchHolderList, fetchHolderPages, processedAccounts, hp, hq]
      · simp [fetchHolderList, fetchHolderPages, processedAccounts, hp, hq,
          List.foldl_append, fetchHolderPages_stop]

/-- C10: for every sequence of pages the API could return, the pagination
loop of `fetchHolderList` performs at most 2 RPC fetches, and the returned
holder map is unchanged if every page after the second is discarded — token
accounts that would appear only on page 3 or later are excluded from the
result. -/
theorem fetchHolderList_page_cap (pages : List (List TokenAccount)) :
    (fetchHolderList pages).2 ≤ 2 ∧
    (fetchHolderList pages).1 = (fetchHolderList (pages.take 2)).1 := by
  constructor
  · match pages with
    | [] => simp [fetchHolderList, fetchHolderPages]
    | [p] =>
      by_cases hp : p.isEmpty
      · simp [fetchHolderList, fetchHolderPages, hp]
      · simp [fetchHolderList, fetchHolderPages, hp]
    | p :: q :: rest =>
      by_cases hp : p.isEmpty
      · simp [fetchHolderList, fetchHolderPages, hp]
      · by_cases hq : q.isEmpty
        · simp [fetchHolderList, fetchHolderPages, hp, hq]
        · simp [fetchHolderList, fetchHolderPages, hp, hq, fetchHolderPages_stop]
  · rw [fetchHolderList_eq_foldl, fetchHolderList_eq_foldl]
    have : processedAccounts (pages.take 2) = processedAccounts pages := by
      simp [processedAccounts, List.take_take]
    rw [this]

lemma lookupOwner_map_update (a : TokenAccount) (owner : String) :
    ∀ m : List (String × ℚ),
      lookupOwner (m.map (fun p => if p.1 = a.owner then (p.1, p.2 + a.amount) else p))
          owner =
        if a.owner = owner then (lookupOwner m owner).map (fun v => v + a.amount)
        else lookupOwner m owner := by
  intro m
  induction m with
  | nil => by_cases ha : a.owner = owner <;> simp [lookupOwner, ha]
  | cons p t ih =>
    by_cases hk : p.1 = a.owner
    · by_cases hp : p.1 = owner
      · have ha : a.owner = owner := hk.symm.trans hp
        simp [lookupOwner, hk, hp, ha]
      · have ha : ¬ a.owner = owner := fun hcon => hp (hk.trans hcon)
        simp [lookupOwner, hk, hp, ha, ih]
    · by_cases hp : p.1 = owner
      · have ha : ¬ a.owner = owner := fun hcon => hk (hp.trans hcon.symm)
        have ha2 : ¬ owner = a.owner := fun hcon => ha hcon.symm
        simp [lookupOwner, hk, hp, ha, ha2]
      · simp [lookupOwner, hk, hp, ih]

lemma lookupOwner_append_single (m : List (String × ℚ)) (k : String) (v : ℚ)
    (owner : String) :
    lookupOwner (m ++ [(k, v)]) owner =
      match lookupOwner m owner with
      | some x => some x
      | none => if k = owner then some v else none := by
  induction m with
  | nil => by_cases h : k = owner <;> simp [lookupOwner, h]
  | cons p t ih =>
    by_cases hp : p.1 = owner <;> simp [lookupOwner, hp, ih]

lemma lookupOwner_addHolder (m : List (String × ℚ)) (a : TokenAccount)
    (owner : String) :
    lookupOwner (addHolder m a) owner =
      if a.owner = owner then some ((lookupOwner m owner).getD 0 + a.amount)
      else lookupOwner m owner := by
  unfold addHolder
  by_cases hmem : (lookupOwner m a.owner).isSome
  · rw [if_pos hmem, lookupOwner_map_update]
    by_cases ha : a.owner = owner
    · obtain ⟨v, hv⟩ := Option.isSome_iff_exists.mp hmem
      rw [ha] at hv
      simp [ha, hv]
    · simp [ha]
  · rw [if_neg hmem, lookupOwner_append_single]
    by_cases ha : a.owner = owner
    · have hnone : lookupOwner m owner = none := by
        rw [← ha]
        exact Option.not_isSome_iff_eq_none.mp hmem
      simp [ha, hnone]
    · cases hl : lookupOwner m owner <;> simp [ha, hl]

lemma lookupOwner_foldl (accs : List TokenAccount) :
    ∀ (m : List (String × ℚ)) (owner : String),
      lookupOwner (accs.foldl addHolder m) owner =
        match lookupOwner m owner with
        | some v => some (v + sumOwner owner accs)
        | none =>
          if accs.any (fun a => a.owner == owner) then some (sumOwner owner accs)
          else none := by
  induction accs with
  | nil =>
    intro m owner
    cases h : lookupOwner m owner <;> simp [sumOwner, h]
  | cons a t ih =>
    intro m owner
    rw [List.foldl_cons, ih (addHolder m a) owner, lookupOwner_addHolder]
    by_cases ha : a.owner = owner
    · cases h : lookupOwner m owner with
      | some v => simp [ha, h, sumOwner, List.filter_cons, add_assoc]
      | none => simp [ha, h, sumOwner, List.filter_cons]
    · cases h : lookupOwner m owner with
      | some v => simp [ha, h, sumOwner, List.filter_cons]
      | none => simp [ha, h, sumOwner, List.filter_cons]

lemma isSome_lookupOwner_of_mem_keys (m : List (String × ℚ)) (k : String)
    (h : k ∈ keys m) : (lookupOwner m k).isSome := by
  induction m with
  | nil => simp [keys] at h
  | cons p t ih =>
    by_cases hp : p.1 = k
    · simp [lookupOwner, hp]
    · simp only [keys, List.map_cons, List.mem_cons] at h
      rcases h with h | h
      · exact absurd h.symm hp
      · simpa [lookupOwner, hp] using ih (by simpa [keys] using h)

lemma keys_addHolder_nodup (m : List (String × ℚ)) (a : TokenAccount)
    (h : (keys m).Nodup) : (keys (addHolder m a)).Nodup := by
  unfold addHolder
  by_cases hmem : (lookupOwner m a.owner).isSome
  · rw [if_pos hmem]
    have hkeys : keys (m.map fun p => if p.1 = a.owner then (p.1, p.2 + a.amount) else p)
        = keys m := by
      unfold keys
      rw [List.map_map]
      apply List.map_congr_left
      intro p _
      by_cases hk : p.1 = a.owner <;> simp [hk]
    rw [hkeys]
    exact h
  · rw [if_neg hmem]
    have hnotin : a.owner ∉ keys m := fun hin =>
      hmem (isSome_lookupOwner_of_mem_keys m a.owner hin)
    unfold keys at h hnotin ⊢
    rw [List.map_append]
    simp [List.nodup_append, h, hnotin]

lemma keys_foldl_nodup (accs : List TokenAccount) :
    ∀ m : List (String × ℚ), (keys m).Nodup → (keys (accs.foldl addHolder m)).Nodup := by
  induction accs with
  | nil => intro m h; simpa using h
  | cons a t ih =>
    intro m h
    rw [List.foldl_cons]
    exact ih (addHolder m a) (keys_addHolder_nodup m a h)

/-- C7: for every sequence of holder pages, `fetchHolderList` returns exactly
one row per unique owner (the owner keys of the returned map are pairwise
distinct), and the aggregated balance recorded for an owner equals the sum of
that owner's per-account balances across all processed pages (an owner with
no processed account is absent). -/
theorem fetchHolderList_merge_correct (pages : List (List TokenAccount))
    (owner : String) :
    (keys (fetchHolderList pages).1).Nodup ∧
    lookupOwner (fetchHolderList pages).1 owner =
      (if (processedAccounts pages).any (fun a => a.owner == owner)
       then some (sumOwner owner (processedAccounts pages))
       else none) := by
  constructor
  · rw [fetchHolderList_eq_foldl]
    exact keys_foldl_nodup (processedAccounts pages) [] (by simp [keys])
  · rw [fetchHolderList_eq_foldl, lookupOwner_foldl]
    simp [lookupOwner]

/-! ### Trust score engine — trustScoreProvider.ts -/

/-- Embeds `RecommenderMetrics` (plugin-trustdb types). The `lastActiveDate`
and `lastUpdated` wall-clock fields are replaced by passing the derived
`inactiveDays` to the operations that need it. -/
structure RecommenderMetrics where
  recommenderId : String
  trustScore : ℚ
  totalRecommendations : ℚ
  successfulRecs : ℚ
  avgTokenPerformance : ℚ
  riskScore : ℚ
  consistencyScore : ℚ
  virtualConfidence : ℚ
  trustDecay : ℚ
deriving Repr, DecidableEq

/-- Embeds `TokenPerformance` (plugin-trustdb types), keeping the fields the
trust score engine reads and writes. -/
structure TokenPerformance where
  tokenAddress : String
  priceChange24h : ℚ
  rugPull : Bool
  isScam : Bool
  rapidDump : Bool
  suspiciousVolume : Bool
  balance : ℚ
  initialMarketCap : ℚ
deriving Repr, DecidableEq

/-- `DECAY_RATE = 0.95` (trustScoreProvider.ts line 42). -/
def DECAY_RATE : ℚ := 19 / 20

/-- `MAX_DECAY_DAYS = 30` (trustScoreProvider.ts line 43). -/
def MAX_DECAY_DAYS : Nat := 30

/-- `decayFactor = DECAY_RATE ^ min(inactiveDays, MAX_DECAY_DAYS)`
(trustScoreProvider.ts lines 234-237). -/
def decayFactor (inactiveDays : Nat) : ℚ :=
  DECAY_RATE ^ min inactiveDays MAX_DECAY_DAYS

/-- Embeds `calculateRiskScore` (trustScoreProvider.ts lines 283-298). -/
def calculateRiskScore (tp : TokenPerformance) : ℚ :=
  (if tp.rugPull then 10 else 0) + (if tp.isScam then 10 else 0) +
    (if tp.rapidDump then 5 else 0) + (if tp.suspiciousVolume then 5 else 0)

/-- Embeds `calculateConsistencyScore` (trustScoreProvider.ts lines 300-308):
`|priceChange24h - avgTokenPerformance|`. -/
def calculateConsistencyScore (tp : TokenPerformance)
    (rm : RecommenderMetrics) : ℚ :=
  |tp.priceChange24h - rm.avgTokenPerformance|

/-- Embeds `calculateTrustScore` (trustScoreProvider.ts lines 257-268):
`(riskScore + consistencyScore) / 2`. -/
def calculateTrustScore (tp : TokenPerformance) (rm : RecommenderMetrics) : ℚ :=
  (calculateRiskScore tp + calculateConsistencyScore tp rm) / 2

/-- Embeds `calculateOverallRiskScore` (trustScoreProvider.ts lines 270-281),
textually identical to `calculateTrustScore`. -/
def calculateOverallRiskScore (tp : TokenPerformance)
    (rm : RecommenderMetrics) : ℚ :=
  (calculateRiskScore tp + calculateConsistencyScore tp rm) / 2

/-- Embeds the pure core of `updateRecommenderMetrics` (trustScoreProvider.ts
lines 193-255): the new `RecommenderMetrics` record written to the database,
computed from the stored metrics, the token performance outcome, the fetched
recommender wallet `balance`, and the number of whole days since
`lastActiveDate`. -/
def updateRecommenderMetrics (old : RecommenderMetrics) (tp : TokenPerformance)
    (balance : ℚ) (inactiveDays : Nat) : RecommenderMetrics :=
  { recommenderId := old.recommenderId
    trustScore := calculateTrustScore tp old
    totalRecommendations := old.totalRecommendations + 1
    successfulRecs :=
      if tp.rugPull then old.successfulRecs else old.successfulRecs + 1
    avgTokenPerformance :=
      (old.avgTokenPerformance * old.totalRecommendations + tp.priceChange24h) /
        (old.totalRecommendations + 1)
    riskScore := calculateOverallRiskScore tp old
    consistencyScore := calculateConsistencyScore tp old
    virtualConfidence := balance / 1000000
    trustDecay := old.trustScore * decayFactor inactiveDays }

/-- C6 (amended): if the stored metrics satisfy
`totalRecommendations ≥ successfulRecs ≥ 0` and `trustDecay ∈ [0, trustScore]`,
then the new record written by `updateRecommenderMetrics` satisfies
`totalRecommendations ≥ successfulRecs ≥ 0`, and its `trustDecay` is
nonnegative and at most the OLD trust score. The bound
`trustDecay ≤ trustScore` on the new record itself does not survive, because
the new `trustScore` is recomputed from risk and consistency while the new
`trustDecay` decays the old trust score. -/
theorem updateRecommenderMetrics_invariants (old : RecommenderMetrics)
    (tp : TokenPerformance) (balance : ℚ) (inactiveDays : Nat)
    (hts : old.successfulRecs ≤ old.totalRecommendations)
    (hsr : 0 ≤ old.successfulRecs)
    (hd0 : 0 ≤ old.trustDecay)
    (hd1 : old.trustDecay ≤ old.trustScore) :
    (updateRecommenderMetrics old tp balance inactiveDays).successfulRecs ≤
        (updateRecommenderMetrics old tp balance inactiveDays).totalRecommendations ∧
    0 ≤ (updateRecommenderMetrics old tp balance inactiveDays).successfulRecs ∧
    0 ≤ (updateRecommenderMetrics old tp balance inactiveDays).trustDecay ∧
    (updateRecommenderMetrics old tp balance inactiveDays).trustDecay ≤
        old.trustScore := by
  have hts0 : (0 : ℚ) ≤ old.trustScore := le_trans hd0 hd1
  have hfac0 : (0 : ℚ) ≤ decayFactor inactiveDays := by
    unfold decayFactor DECAY_RATE
    positivity
  have hfac1 : decayFactor inactiveDays ≤ 1 := by
    unfold decayFactor DECAY_RATE
    apply pow_le_one₀ <;> norm_num
  refine ⟨?_, ?_, ?_, ?_⟩
  · unfold updateRecommenderMetrics
    dsimp only
    split <;> linarith
  · unfold updateRecommenderMetrics
    dsimp only
    split <;> linarith
  · unfold updateRecommenderMetrics
    dsimp only
    exact mul_nonneg hts0 hfac0
  · unfold updateRecommenderMetrics
    dsimp only
    exact mul_le_of_le_one_right hts0 hfac1

/-- Witness for `updateRecommenderMetrics_invariants` at concrete metrics
(trustScore 100, 4 total and 2 successful recommendations, trustDecay 50), a
token performance with no risk flags, and 10 inactive days. -/
theorem updateRecommenderMetrics_invariants_witness :
    (0 : ℚ) ≤ 2 ∧
    (updateRecommenderMetrics
        ⟨"r1", 100, 4, 2, 0, 0, 0, 0, 50⟩
        ⟨"tok", 0, false, false, false, false, 0, 0⟩ 0 10).successfulRecs ≤
      (updateRecommenderMetrics
        ⟨"r1", 100, 4, 2, 0, 0, 0, 0, 50⟩
        ⟨"tok", 0, false, false, false, false, 0, 0⟩ 0 10).totalRecommendations :=
  ⟨by norm_num,
   (updateRecommenderMetrics_invariants
      ⟨"r1", 100, 4, 2, 0, 0, 0, 0, 50⟩
      ⟨"tok", 0, false, false, false, false, 0, 0⟩ 0 10
      (by norm_num) (by norm_num) (by norm_num) (by norm_num)).1⟩

/-- Counterexample to C6 as stated: stored metrics with trustScore 100,
trustDecay 50 and 2 of 4 successful recommendations satisfy the claimed
precondition, yet after an update for a token with no risk flags whose 24h
price change equals the stored average (consistency 0) and zero inactive
days, the new record has trustDecay = 100 but trustScore = 0, violating
`trustDecay ≤ trustScore`. -/
theorem updateRecommenderMetrics_trustDecay_counterexample :
    ((0 : ℚ) ≤ 2 ∧ (2 : ℚ) ≤ 4 ∧ (0 : ℚ) ≤ 50 ∧ (50 : ℚ) ≤ 100) ∧
    (updateRecommenderMetrics
        ⟨"r1", 100, 4, 2, 0, 0, 0, 0, 50⟩
        ⟨"tok", 0, false, false, false, false, 0, 0⟩ 0 0).trustDecay = 100 ∧
    (updateRecommenderMetrics
        ⟨"r1", 100, 4, 2, 0, 0, 0, 0, 50⟩
        ⟨"tok", 0, false, false, false, false, 0, 0⟩ 0 0).trustScore = 0 ∧
    ¬ ((updateRecommenderMetrics
        ⟨"r1", 100, 4, 2, 0, 0, 0, 0, 50⟩
        ⟨"tok", 0, false, false, false, false, 0, 0⟩ 0 0).trustDecay ≤
      (updateRecommenderMetrics
        ⟨"r1", 100, 4, 2, 0, 0, 0, 0, 50⟩
        ⟨"tok", 0, false, false, false, false, 0, 0⟩ 0 0).trustScore) := by
  refine ⟨by norm_num, ?_, ?_, ?_⟩ <;>
    simp [updateRecommenderMetrics, calculateTrustScore, calculateRiskScore,
      calculateConsistencyScore, calculateOverallRiskScore, decayFactor,
      DECAY_RATE, MAX_DECAY_DAYS]

/-! ### Sell settlement — trustScoreProvider.ts lines 492-589 -/

/-- Embeds `Recommender` (plugin-trustdb types), keeping the identity fields
the sell path uses. -/
structure Recommender where
  id : String
  address : String
deriving Repr, DecidableEq

/-- Embeds `SellDetails` as consumed by `updateSellDetails`: token address,
amount to sell, recommender, and the simulation flag. The timestamp is not
modelled. -/
structure SellDetails where
  tokenAddress : String
  amount : ℚ
  recommender : Recommender
  isSimulation : Bool
deriving Repr, DecidableEq

/-- The sell summary computed by `updateSellDetails` (trustScoreProvider.ts
lines 537-551). -/
structure SellDetailsData where
  price : ℚ
  amount : ℚ
  receivedSol : ℚ
  valueUsd : ℚ
  profitUsd : ℚ
  profitPercent : ℚ
  marketCap : ℚ
  marketCapChange : ℚ
  liquidity : ℚ
  liquidityChange : ℚ
  rapidDump : Bool
  recommenderId : String
deriving Repr, DecidableEq

/-- Embeds a `TradePerformance` row (plugin-trustdb types), keeping the buy
fields `updateSellDetails` reads; the sell-prefixed fields are represented by
the `sell` option filled in on settlement. -/
structure TradeRow where
  token_address : String
  recommender_id : String
  buy_timeStamp : String
  buy_value_usd : ℚ
  buy_market_cap : ℚ
  buy_liquidity : ℚ
  isSimulation : Bool
  sell : Option SellDetailsData
deriving Repr, DecidableEq

/-- A `Transaction` ledger entry (plugin-trustdb types); the random hash and
timestamp are not modelled. -/
structure Txn where
  tokenAddress : String
  type : String
  amount : ℚ
  price : ℚ
  isSimulation : Bool
deriving Repr, DecidableEq

/-- The persisted state owned by the persistence collaborator, restricted to
the entities the sell path touches. -/
structure TrustDB where
  recommenders : List Recommender
  trades : List TradeRow
  balances : List (String × ℚ)
  transactions : List Txn
deriving Repr, DecidableEq

/-- Modelled from the spec: `TrustScoreDatabase.getOrCreateRecommender` (the
implementation is not under src/, only its interface): "idempotent upsert by
identity" — returns the stored recommender with the given id, creating it on
first mention. -/
def dbGetOrCreateRecommender (db : TrustDB) (r : Recommender) :
    TrustDB × Recommender :=
  match db.recommenders.find? (fun r0 => r0.id == r.id) with
  | some r0 => (db, r0)
  | none => ({ db with recommenders := db.recommenders ++ [r] }, r)

/-- Modelled from the spec: `TrustScoreDatabase.getLatestTradePerformance`
(implementation not under src/): the most recent buy row for the
token/recommender pair in the requested partition, `none` when no matching
buy exists. -/
def dbGetLatestTradePerformance (db : TrustDB) (token recId : String)
    (isSim : Bool) : Option TradeRow :=
  (db.trades.filter (fun t =>
    t.token_address == token && t.recommender_id == recId &&
      t.isSimulation == isSim)).getLast?

/-- Modelled from the spec: `TrustScoreDatabase.getTokenBalance`
(implementation not under src/): the stored simulated balance for the token. -/
def dbGetTokenBalance (db : TrustDB) (token : String) : ℚ :=
  (lookupOwner db.balances token).getD 0

/-- Modelled from the spec: `TrustScoreDatabase.updateTokenBalance`
(implementation not under src/): stores the given balance for the token. -/
def dbUpdateTokenBalance (db : TrustDB) (token : String) (v : ℚ) : TrustDB :=
  { db with balances :=
      if (lookupOwner db.balances token).isSome then
        db.balances.map (fun p => if p.1 = token then (p.1, v) else p)
      else db.balances ++ [(token, v)] }

/-- Modelled from the spec: `TrustScoreDatabase.addTransaction`
(implementation not under src/): appends one immutable ledger entry. -/
def dbAddTransaction (db : TrustDB) (txn : Txn) : TrustDB :=
  { db with transactions := db.transactions ++ [txn] }

/-- Modelled from the spec: `TrustScoreDatabase.updateTradePerformanceOnSell`
(implementation not under src/): fills the sell-prefixed fields of the trade
row keyed by token, recommender and buy timestamp in the requested
partition. -/
def dbUpdateTradePerformanceOnSell (db : TrustDB) (token recId buyTs : String)
    (sd : SellDetailsData) (isSim : Bool) : TrustDB :=
  { db with trades := db.trades.map (fun t =>
      if t.token_address == token && t.recommender_id == recId &&
          t.buy_timeStamp == buyTs && t.isSimulation == isSim
      then { t with sell := some sd } else t) }

/-- The market data `updateSellDetails` reads (through the token provider and
the Coingecko price feed) before settling: current token price, the top
pair's market cap and liquidity (0 when absent), the SOL/USD price and the
rapid-dump flag. These reads mutate no persisted state. -/
structure MarketInput where
  price : ℚ
  marketCap : ℚ
  liquidity : ℚ
  solPrice : ℚ
  isRapidDump : Bool
deriving Repr, DecidableEq

/-- Embeds `TrustScoreManager.updateSellDetails` (trustScoreProvider.ts lines
492-589): upsert the recommender, read market data, look up the open trade
(returning without a summary when none exists), compute the sell summary,
fill the trade row, and — for simulations — store the decremented balance
and append a sell transaction. -/
def updateSellDetails (db : TrustDB) (sellDetails : SellDetails)
    (mkt : MarketInput) : TrustDB × Option SellDetailsData :=
  let res := dbGetOrCreateRecommender db sellDetails.recommender
  let db1 := res.1
  let recommender := res.2
  let sellSol := sellDetails.amount / mkt.solPrice
  let valueUsd := sellDetails.amount * mkt.price
  match dbGetLatestTradePerformance db1 sellDetails.tokenAddress
      recommender.id sellDetails.isSimulation with
  | none => (db1, none)
  | some trade =>
    let marketCapChange :=
      if mkt.marketCap > 0 then mkt.marketCap - trade.buy_market_cap else 0
    let liquidityChange :=
      if mkt.liquidity > 0 then mkt.liquidity - trade.buy_liquidity else 0
    let profitUsd := valueUsd - trade.buy_value_usd
    let profitPercent := profitUsd / trade.buy_value_usd * 100
    let sellDetailsData : SellDetailsData :=
      { price := mkt.price
        amount := sellDetails.amount
        receivedSol := sellSol
        valueUsd := valueUsd
        profitUsd := profitUsd
        profitPercent := profitPercent
        marketCap := mkt.marketCap
        marketCapChange := marketCapChange
        liquidity := mkt.liquidity
        liquidityChange := liquidityChange
        rapidDump := mkt.isRapidDump
        recommenderId := sellDetails.recommender.id }
    let db2 := dbUpdateTradePerformanceOnSell db1 sellDetails.tokenAddress
      recommender.id trade.buy_timeStamp sellDetailsData sellDetails.isSimulation
    let db3 :=
      if sellDetails.isSimulation then
        let oldBalance := dbGetTokenBalance db2 sellDetails.tokenAddress
        let tokenBalance := oldBalance - sellDetails.amount
        let db4 := dbUpdateTokenBalance db2 sellDetails.tokenAddress tokenBalance
        dbAddTransaction db4
          ⟨sellDetails.tokenAddress, "sell", sellDetails.amount, mkt.price, true⟩
      else db2
    (db3, some sellDetailsData)

lemma dbGetOrCreateRecommender_frame (db : TrustDB) (r : Recommender) :
    (dbGetOrCreateRecommender db r).1.trades = db.trades ∧
    (dbGetOrCreateRecommender db r).1.balances = db.balances ∧
    (dbGetOrCreateRecommender db r).1.transactions = db.transactions := by
  unfold dbGetOrCreateRecommender
  cases db.recommenders.find? (fun r0 => r0.id == r.id) <;> simp

lemma dbGetOrCreateRecommender_found (db : TrustDB) (r : Recommender)
    (h : (db.recommenders.find? (fun r0 => r0.id == r.id)).isSome) :
    (dbGetOrCreateRecommender db r).1 = db := by
  unfold dbGetOrCreateRecommender
  obtain ⟨r0, hr0⟩ := Option.isSome_iff_exists.mp h
  rw [hr0]

/-- C5 (amended): when the open-trade lookup finds nothing,
`updateSellDetails` returns the no-open-trade signal (an absent sell
summary, `undefined` in the source) without throwing, and mutates no
trade, balance, or transaction state; the only possible mutation is the
recommender upsert performed before the lookup, which is the identity
whenever the recommender already exists. -/
theorem updateSellDetails_no_open_trade (db : TrustDB) (sd : SellDetails)
    (mkt : MarketInput)
    (h : dbGetLatestTradePerformance (dbGetOrCreateRecommender db sd.recommender).1
        sd.tokenAddress (dbGetOrCreateRecommender db sd.recommender).2.id
        sd.isSimulation = none) :
    (updateSellDetails db sd mkt).2 = none ∧
    (updateSellDetails db sd mkt).1.trades = db.trades ∧
    (updateSellDetails db sd mkt).1.balances = db.balances ∧
    (updateSellDetails db sd mkt).1.transactions = db.transactions ∧
    ((db.recommenders.find? (fun r0 => r0.id == sd.recommender.id)).isSome →
      (updateSellDetails db sd mkt).1 = db) := by
  have hframe := dbGetOrCreateRecommender_frame db sd.recommender
  have hres : updateSellDetails db sd mkt =
      ((dbGetOrCreateRecommender db sd.recommender).1, none) := by
    unfold updateSellDetails
    dsimp only
    rw [h]
  rw [hres]
  exact ⟨rfl, hframe.1, hframe.2.1, hframe.2.2,
    fun hfound => dbGetOrCreateRecommender_found db sd.recommender hfound⟩

/-- Witness for `updateSellDetails_no_open_trade`: a store that already
knows the recommender but holds no trades; the call returns no summary and
leaves the store untouched. -/
theorem updateSellDetails_no_open_trade_witness :
    (updateSellDetails ⟨[⟨"r1", "addr1"⟩], [], [], []⟩
        ⟨"tok", 5, ⟨"r1", "addr1"⟩, true⟩ ⟨1, 0, 0, 1, false⟩).2 = none ∧
    (updateSellDetails ⟨[⟨"r1", "addr1"⟩], [], [], []⟩
        ⟨"tok", 5, ⟨"r1", "addr1"⟩, true⟩ ⟨1, 0, 0, 1, false⟩).1 =
      ⟨[⟨"r1", "addr1"⟩], [], [], []⟩ :=
  have h := updateSellDetails_no_open_trade ⟨[⟨"r1", "addr1"⟩], [], [], []⟩
    ⟨"tok", 5, ⟨"r1", "addr1"⟩, true⟩ ⟨1, 0, 0, 1, false⟩ (by decide)
  ⟨h.1, h.2.2.2.2 (by decide)⟩

/-- Counterexample to C5 as stated ("performs no mutation of persisted
state"): on an empty store, a sell directive for an unknown recommender with
no prior buy returns the no-open-trade signal, yet the persisted state has
changed — the recommender upsert that `updateSellDetails` performs before
the trade lookup created a recommender record. -/
theorem updateSellDetails_creates_recommender_counterexample :
    (updateSellDetails ⟨[], [], [], []⟩ ⟨"tok", 5, ⟨"r1", "addr1"⟩, true⟩
        ⟨1, 0, 0, 1, false⟩).2 = none ∧
    (updateSellDetails ⟨[], [], [], []⟩ ⟨"tok", 5, ⟨"r1", "addr1"⟩, true⟩
        ⟨1, 0, 0, 1, false⟩).1.recommenders = [⟨"r1", "addr1"⟩] ∧
    (updateSellDetails ⟨[], [], [], []⟩ ⟨"tok", 5, ⟨"r1", "addr1"⟩, true⟩
        ⟨1, 0, 0, 1, false⟩).1 ≠ (⟨[], [], [], []⟩ : TrustDB) := by
  refine ⟨by decide, by decide, by decide⟩

lemma lookupOwner_map_set (t : String) (v : ℚ) :
    ∀ m : List (String × ℚ),
      lookupOwner (m.map (fun p => if p.1 = t then (p.1, v) else p)) t =
        (lookupOwner m t).map (fun _ => v) := by
  intro m
  induction m with
  | nil => simp [lookupOwner]
  | cons p rest ih =>
    by_cases hp : p.1 = t
    · simp [lookupOwner, hp]
    · simp [lookupOwner, hp, ih]

lemma dbGetTokenBalance_after_update (db : TrustDB) (t : String) (v : ℚ) :
    dbGetTokenBalance (dbUpdateTokenBalance db t v) t = v := by
  unfold dbGetTokenBalance dbUpdateTokenBalance
  by_cases hmem : (lookupOwner db.balances t).isSome
  · obtain ⟨v0, hv0⟩ := Option.isSome_iff_exists.mp hmem
    simp [hmem, lookupOwner_map_set, hv0]
  · have hnone : lookupOwner db.balances t = none :=
      Option.not_isSome_iff_eq_none.mp hmem
    simp [hmem, lookupOwner_append_single, hnone]

lemma dbUpdateTradePerformanceOnSell_balances (db : TrustDB)
    (token recId buyTs : String) (sd : SellDetailsData) (isSim : Bool) :
    (dbUpdateTradePerformanceOnSell db token recId buyTs sd isSim).balances =
      db.balances := rfl

lemma dbAddTransaction_balances (db : TrustDB) (txn : Txn) :
    (dbAddTransaction db txn).balances = db.balances := rfl

lemma dbGetTokenBalance_congr (db1 db2 : TrustDB) (t : String)
    (h : db1.balances = db2.balances) :
    dbGetTokenBalance db1 t = dbGetTokenBalance db2 t := by
  unfold dbGetTokenBalance
  rw [h]

/-- C8: for every simulated sell for which an open trade exists,
`updateSellDetails` persists a token balance exactly equal to the previously
stored balance minus the requested amount, with no clamping at zero: when
the requested amount exceeds the stored balance the persisted balance is
negative. -/
theorem updateSellDetails_balance_subtraction (db : TrustDB) (sd : SellDetails)
    (mkt : MarketInput) (trade : TradeRow)
    (hsim : sd.isSimulation = true)
    (h : dbGetLatestTradePerformance (dbGetOrCreateRecommender db sd.recommender).1
        sd.tokenAddress (dbGetOrCreateRecommender db sd.recommender).2.id
        sd.isSimulation = some trade) :
    dbGetTokenBalance (updateSellDetails db sd mkt).1 sd.tokenAddress =
      dbGetTokenBalance db sd.tokenAddress - sd.amount ∧
    (dbGetTokenBalance db sd.tokenAddress < sd.amount →
      dbGetTokenBalance (updateSellDetails db sd mkt).1 sd.tokenAddress < 0) := by
  have hframe := dbGetOrCreateRecommender_frame db sd.recommender
  have hmain : dbGetTokenBalance (updateSellDetails db sd mkt).1 sd.tokenAddress =
      dbGetTokenBalance db sd.tokenAddress - sd.amount := by
    unfold updateSellDetails
    dsimp only
    rw [h]
    simp only [hsim, if_true]
    rw [dbGetTokenBalance_congr _ _ _ (dbAddTransaction_balances _ _),
      dbGetTokenBalance_after_update,
      dbGetTokenBalance_congr _ _ _ (dbUpdateTradePerformanceOnSell_balances _ _ _ _ _ _),
      dbGetTokenBalance_congr _ _ _ hframe.2.1]
  refine ⟨hmain, fun hlt => ?_⟩
  rw [hmain]
  linarith

/-- Witness for `updateSellDetails_balance_subtraction`: a store holding a
simulated buy of token `tok` and a stored balance of 5; selling 8 leaves the
persisted balance at -3. -/
theorem updateSellDetails_balance_subtraction_witness :
    dbGetTokenBalance (updateSellDetails
        ⟨[⟨"r1", "addr1"⟩], [⟨"tok", "r1", "ts0", 100, 0, 0, true, none⟩],
          [("tok", 5)], []⟩
        ⟨"tok", 8, ⟨"r1", "addr1"⟩, true⟩ ⟨1, 0, 0, 1, false⟩).1 "tok" < 0 := by
  have h := updateSellDetails_balance_subtraction
    ⟨[⟨"r1", "addr1"⟩], [⟨"tok", "r1", "ts0", 100, 0, 0, true, none⟩],
      [("tok", 5)], []⟩
    ⟨"tok", 8, ⟨"r1", "addr1"⟩, true⟩ ⟨1, 0, 0, 1, false⟩
    ⟨"tok", "r1", "ts0", 100, 0, 0, true, none⟩ rfl
    (by simp [dbGetLatestTradePerformance, dbGetOrCreateRecommender])
  exact h.2 (by norm_num [dbGetTokenBalance, lookupOwner])

/-! ### Simulated selling orchestrator — simulationSellingService.ts -/

/-- The atomic segments of `processTokenPerformance`
(simulationSellingService.ts lines 221-256), split at its `await` suspension
points: the synchronous membership test on `runningProcesses`, the awaited
`trustScoreDb.getTokenPerformance` lookup, the awaited `sonar.startProcess`
backend call, and the synchronous `runningProcesses.add`. -/
inductive StartStep where
  | checkRunning
  | fetchPerformance
  | callStartProcess
  | insertRunning
deriving Repr, DecidableEq

/-- The full program of one `processTokenPerformance` request, in source
order. -/
def startProgram : List StartStep :=
  [.checkRunning, .fetchPerformance, .callStartProcess, .insertRunning]

/-- The orchestrator state shared by concurrent requests: the
`runningProcesses` membership set (a JavaScript `Set`, duplicate-free in
insertion order) and the number of backend `startProcess` calls completed. -/
structure OrchState where
  running : List String
  startCalls : Nat
deriving Repr, DecidableEq

/-- Effect of one atomic segment of a request for token `t`: the new shared
state and whether the request continues (`false` models the early `return`
taken when the token is already being processed). The token performance is
assumed stored and the sonar backend configured and answering successfully,
matching the scenario of the claim. -/
def runStartStep (st : OrchState) (t : String) : StartStep → OrchState × Bool
  | .checkRunning => (st, !st.running.contains t)
  | .fetchPerformance => (st, true)
  | .callStartProcess => ({ st with startCalls := st.startCalls + 1 }, true)
  | .insertRunning =>
      ({ st with running :=
          if st.running.contains t then st.running else st.running ++ [t] },
        true)

/-- A system of in-flight requests: the shared state plus each request's
token and remaining program. -/
structure Sys where
  st : OrchState
  reqs : List (String × List StartStep)
deriving Repr, DecidableEq

/-- One event-loop step: run the next atomic segment of request `i`
(a no-op when that request has already returned). -/
def schedStep (sys : Sys) (i : Nat) : Sys :=
  match sys.reqs.get? i with
  | none => sys
  | some (_, []) => sys
  | some (t, s :: rest) =>
    let r := runStartStep sys.st t s
    { st := r.1, reqs := sys.reqs.set i (t, if r.2 then rest else []) }

/-- Run a schedule: the sequence of choices of which request the
single-threaded event loop advances next. -/
def runSchedule (sys : Sys) (sched : List Nat) : Sys :=
  sched.foldl schedStep sys

/-- Two concurrent `processTokenPerformance` requests for the same token
address, starting from an empty running set. -/
def twoStartRequests (t : String) : Sys :=
  ⟨⟨[], 0⟩, [(t, startProgram), (t, startProgram)]⟩

/-- C1: the at-most-one-start guarantee fails on the code. Under the
event-loop interleaving in which both requests for token "T" pass the
`runningProcesses` membership check before either awaited backend call
resolves (the check and the `add` are separated by two `await` suspension
points), BOTH `startProcess` calls proceed to completion — 2 backend calls,
though the `Set` still ends with the single entry "T". Under the fully
serialized schedule the second request is a no-op and only 1 call is made,
which is the behavior the claim asserts for every interleaving. -/
theorem concurrent_start_requests_double_startProcess :
    (runSchedule (twoStartRequests "T") [0, 1, 0, 1, 0, 1, 0, 1]).st.startCalls = 2 ∧
    (runSchedule (twoStartRequests "T") [0, 1, 0, 1, 0, 1, 0, 1]).st.running = ["T"] ∧
    (runSchedule (twoStartRequests "T") [0, 0, 0, 0, 1, 1, 1, 1]).st.startCalls = 1 := by
  refine ⟨by decide, by decide, by decide⟩

/-- The observable events of handling one queue sell directive. -/
inductive SellEvent where
  | messageReceived
  | tokenLookupDone
  | sellExecuted
  | removedFromRunning
  | acked
deriving Repr, DecidableEq, BEq

/-- The segments of `processMessage` (simulationSellingService.ts lines
101-135), split at its `await` suspension points: the synchronous prefix
(JSON.parse and logging) up to the awaited `getTokenPerformance`, then the
lookup result handling up to the awaited recommender upsert and sell
execution, and finally the completion bookkeeping
(`runningProcesses.delete`). -/
def processMessageSegments : List (List SellEvent) :=
  [[.messageReceived], [.tokenLookupDone], [.sellExecuted, .removedFromRunning]]

/-- The consume callback registered by `consumeMessages`
(simulationSellingService.ts lines 83-93): it invokes
`this.processMessage(content)` WITHOUT `await`, so on the single-threaded
event loop only the synchronous first segment of `processMessage` runs
before control returns to the callback, which immediately calls
`this.amqpChannel.ack(msg)`; the remaining segments of `processMessage` run
only after the callback has finished. -/
def consumeCallbackTrace : List SellEvent :=
  match processMessageSegments with
  | [] => [.acked]
  | seg1 :: restSegs => seg1 ++ [.acked] ++ restSegs.flatten

/-- C2: acknowledge-after-execution fails on the code. In the event trace of
the consume callback the acknowledgement occurs strictly before the sell is
executed (the sell is still in progress when the message is acked), because
`processMessage` is dispatched without `await` and the callback acks
unconditionally right after dispatching. The claim requires the opposite
order. -/
theorem ack_precedes_sell_execution :
    consumeCallbackTrace.indexOf SellEvent.acked <
      consumeCallbackTrace.indexOf SellEvent.sellExecuted ∧
    SellEvent.sellExecuted ∈ consumeCallbackTrace := by
  refine ⟨by decide, by simp [consumeCallbackTrace, processMessageSegments]⟩

/-! ### Dexscreener search fallback — clients.ts lines 336-361 -/

/-- A trading pair as used by the search path; only the fields the selection
logic reads. -/
structure DexScreenerPair where
  liquidityUsd : ℚ
  marketCap : ℚ
deriving Repr, DecidableEq

/-- The raw JSON value `this.request` can yield inside `search`: a schema
version and a `pairs` field that may be absent (`undefined` in the dynamic
response). -/
structure RawDexData where
  schemaVersion : String
  pairs : Option (List DexScreenerPair)
deriving Repr, DecidableEq

/-- What `search` observes of the underlying request: the promise rejects,
or resolves with a possibly-null value. -/
inductive SearchOutcome where
  | thrown
  | ok (data : Option RawDexData)
deriving Repr, DecidableEq

/-- The normalized result type `DexScreenerData` with a mandatory pairs
array. -/
structure DexScreenerData where
  schemaVersion : String
  pairs : List DexScreenerPair
deriving Repr, DecidableEq

/-- The try block of `DexscreenerClient.search` (clients.ts lines 340-353):
issue the request; if `!data || !data.pairs`, throw
"No DexScreener data available"; otherwise return the data unchanged. -/
def searchBody : SearchOutcome → Except String DexScreenerData
  | .thrown => Except.error "request failed"
  | .ok none => Except.error "No DexScreener data available"
  | .ok (some d) =>
    match d.pairs with
    | none => Except.error "No DexScreener data available"
    | some l => Except.ok ⟨d.schemaVersion, l⟩

/-- Embeds `DexscreenerClient.search` (clients.ts lines 336-361): every
error of the try block is caught, logged, and replaced by the fallback value
with schemaVersion "1.0.0" and an empty pairs array. -/
def search (outcome : SearchOutcome) : DexScreenerData :=
  match searchBody outcome with
  | .ok d => d
  | .error _ => ⟨"1.0.0", []⟩

/-- C9: `search` never propagates an error to its caller — it is total over
every request outcome, and whenever the try block fails (the request threw,
the response was null, or it had no `pairs` field) it returns the fallback
whose pairs array is empty; a response that genuinely contains an empty
pairs array also yields an empty pairs array, so the two cases are
indistinguishable by the pairs the caller sees. -/
theorem dexscreener_search_never_fails (outcome : SearchOutcome) :
    (∀ e, searchBody outcome = Except.error e →
      search outcome = ⟨"1.0.0", []⟩) ∧
    search SearchOutcome.thrown = ⟨"1.0.0", []⟩ ∧
    (∀ sv, (search (SearchOutcome.ok (some ⟨sv, some []⟩))).pairs = []) := by
  refine ⟨?_, rfl, fun sv => rfl⟩
  intro e he
  unfold search
  rw [he]

/-- Witness for `dexscreener_search_never_fails` at the outcome where the
underlying request throws. -/
theorem dexscreener_search_never_fails_witness :
    search SearchOutcome.thrown = ⟨"1.0.0", []⟩ :=
  (dexscreener_search_never_fails SearchOutcome.thrown).1 "request failed" rfl

end Eliza
